import Mathlib

/-!
Verification of the fetch/verify/persist core of service-loader.

Shallow embedding of `src/main.go` of `wyattjoh/service-loader`.

The program derives object keys from (app, tag, os, arch), downloads the
archive from an S3/minio bucket, computes its SHA-256 (via `generateSha256`,
which drains the `bytes.Buffer` it is given), resolves the expected digest
(either the `-sha` flag or the first whitespace field of the downloaded
`.sha256` object), compares, and on a match creates the local file and copies
the (by then drained) buffer into it.

Bytes are modelled as `Nat` values below 256; Go strings of ASCII text are
modelled as Lean `String`s.  External effects (the minio client call, the two
downloads, `os.Create`, `io.Copy` to the file) are modelled by an explicit
environment `Env`, and the run returns its outcome together with the trace of
store fetches / file creations and the final set of files it wrote.
-/

set_option maxRecDepth 16384

namespace ServiceLoader

/-! ## SHA-256 (crypto/sha256), on `Nat` words reduced mod 2^32 -/

def w32 (n : Nat) : Nat := n % 4294967296

def xor32 (a b : Nat) : Nat := Nat.xor a b

def and32 (a b : Nat) : Nat := Nat.land a b

def not32 (a : Nat) : Nat := Nat.xor a 4294967295

/-- Rotate a 32-bit word (`a < 2^32`) right by `n` bits. -/
def rotr (a n : Nat) : Nat := Nat.lor (a >>> n) (w32 (a <<< (32 - n)))

/-- The SHA-256 round constants (FIPS 180-4, in decimal). -/
def K256 : List Nat :=
  [1116352408, 1899447441, 3049323471, 3921009573,
   961987163, 1508970993, 2453635748, 2870763221,
   3624381080, 310598401, 607225278, 1426881987,
   1925078388, 2162078206, 2614888103, 3248222580,
   3835390401, 4022224774, 264347078, 604807628,
   770255983, 1249150122, 1555081692, 1996064986,
   2554220882, 2821834349, 2952996808, 3210313671,
   3336571891, 3584528711, 113926993, 338241895,
   666307205, 773529912, 1294757372, 1396182291,
   1695183700, 1986661051, 2177026350, 2456956037,
   2730485921, 2820302411, 3259730800, 3345764771,
   3516065817, 3600352804, 4094571909, 275423344,
   430227734, 506948616, 659060556, 883997877,
   958139571, 1322822218, 1537002063, 1747873779,
   1955562222, 2024104815, 2227730452, 2361852424,
   2428436474, 2756734187, 3204031479, 3329325298]

/-- The eight working variables of the compression function. -/
structure Hash8 where
  a : Nat
  b : Nat
  c : Nat
  d : Nat
  e : Nat
  f : Nat
  g : Nat
  h : Nat
deriving DecidableEq

/-- The SHA-256 initial hash value (FIPS 180-4, in decimal). -/
def H0 : Hash8 :=
  ⟨1779033703, 3144134277, 1013904242, 2773480762,
   1359893119, 2600822924, 528734635, 1541459225⟩

/-- One round of the SHA-256 compression function. -/
def compressRound (k w : Nat) (s : Hash8) : Hash8 :=
  let bigS1 := xor32 (rotr s.e 6) (xor32 (rotr s.e 11) (rotr s.e 25))
  let ch := xor32 (and32 s.e s.f) (and32 (not32 s.e) s.g)
  let t1 := w32 (s.h + bigS1 + ch + k + w)
  let bigS0 := xor32 (rotr s.a 2) (xor32 (rotr s.a 13) (rotr s.a 22))
  let maj := xor32 (and32 s.a s.b) (xor32 (and32 s.a s.c) (and32 s.b s.c))
  let t2 := w32 (bigS0 + maj)
  ⟨w32 (t1 + t2), s.a, s.b, s.c, w32 (s.d + t1), s.e, s.f, s.g⟩

/-- Append the next word of the message schedule (W[i] for i = size). -/
def stepW (ws : Array Nat) : Array Nat :=
  let i := ws.size
  let w15 := ws.getD (i - 15) 0
  let w2 := ws.getD (i - 2) 0
  let w16 := ws.getD (i - 16) 0
  let w7 := ws.getD (i - 7) 0
  let s0 := xor32 (xor32 (rotr w15 7) (rotr w15 18)) (w15 >>> 3)
  let s1 := xor32 (xor32 (rotr w2 17) (rotr w2 19)) (w2 >>> 10)
  ws.push (w32 (w16 + s0 + w7 + s1))

def extendW : Nat → Array Nat → Array Nat
  | 0, ws => ws
  | n + 1, ws => extendW n (stepW ws)

/-- The 64-word message schedule of a 16-word block. -/
def schedule (block : List Nat) : List Nat :=
  (extendW 48 (List.toArray block)).toList

/-- Compress one 16-word block into the hash state. -/
def compressBlock (s : Hash8) (block : List Nat) : Hash8 :=
  let t := (List.zip K256 (schedule block)).foldl
    (fun st kw => compressRound kw.1 kw.2 st) s
  ⟨w32 (s.a + t.a), w32 (s.b + t.b), w32 (s.c + t.c), w32 (s.d + t.d),
   w32 (s.e + t.e), w32 (s.f + t.f), w32 (s.g + t.g), w32 (s.h + t.h)⟩

/-- Big-endian 4-byte groups to 32-bit words (input length a multiple of 4). -/
def bytesToWords : List Nat → List Nat
  | b0 :: b1 :: b2 :: b3 :: rest =>
      (b0 * 16777216 + b1 * 65536 + b2 * 256 + b3) :: bytesToWords rest
  | _ => []

/-- Split a word list into 16-word blocks (the padded input is always a
multiple of 16 words, so the final catch-all is never reached). -/
def chunk16 : List Nat → List (List Nat)
  | w0 :: w1 :: w2 :: w3 :: w4 :: w5 :: w6 :: w7 ::
    w8 :: w9 :: w10 :: w11 :: w12 :: w13 :: w14 :: w15 :: rest =>
      [w0, w1, w2, w3, w4, w5, w6, w7,
       w8, w9, w10, w11, w12, w13, w14, w15] :: chunk16 rest
  | [] => []
  | l => [l]

/-- The 8-byte big-endian encoding of the bit length. -/
def lenBytes (n : Nat) : List Nat :=
  [n / 72057594037927936 % 256, n / 281474976710656 % 256,
   n / 1099511627776 % 256, n / 4294967296 % 256,
   n / 16777216 % 256, n / 65536 % 256, n / 256 % 256, n % 256]

/-- SHA-256 padding: 0x80, zeros to 56 mod 64, then the 64-bit bit length. -/
def padMessage (msg : List Nat) : List Nat :=
  let zeros := (119 - msg.length % 64) % 64
  msg ++ 0x80 :: List.replicate zeros 0 ++ lenBytes (msg.length * 8)

/-- The final hash state over a byte message. -/
def sha256Hash (msg : List Nat) : Hash8 :=
  (chunk16 (bytesToWords (padMessage msg))).foldl compressBlock H0

/-- A 32-bit word as 4 big-endian bytes. -/
def wordToBytes (w : Nat) : List Nat :=
  [w / 16777216 % 256, w / 65536 % 256, w / 256 % 256, w % 256]

/-- The 32-byte SHA-256 digest of a byte message (h.Sum(nil) in the source). -/
def sha256Bytes (msg : List Nat) : List Nat :=
  let s := sha256Hash msg
  wordToBytes s.a ++ wordToBytes s.b ++ wordToBytes s.c ++ wordToBytes s.d ++
  wordToBytes s.e ++ wordToBytes s.f ++ wordToBytes s.g ++ wordToBytes s.h

/-- hex.EncodeToString: lowercase hex digit of a nibble. -/
def hexDigit (n : Nat) : Char :=
  if n < 10 then Char.ofNat (48 + n) else Char.ofNat (87 + n)

/-- hex.EncodeToString: two lowercase hex characters per byte. -/
def hexEncode : List Nat → List Char
  | [] => []
  | b :: rest => hexDigit (b / 16) :: hexDigit (b % 16) :: hexEncode rest

/-- A character is a lowercase hexadecimal digit (0-9 or a-f). -/
def isLowerHexDigit (c : Char) : Bool :=
  (48 ≤ c.toNat && c.toNat ≤ 57) || (97 ≤ c.toNat && c.toNat ≤ 102)

/-- Embedding of `generateSha256` (src/main.go): drains the reader it is given via
`io.Copy(h, buf)` and returns the lowercase-hex digest.  Reading from the
in-memory `bytes.Buffer` cannot fail, so the error branch of the source is
unreachable here.  The second component is the state of the buffer after the
call: `io.Copy` consumed it completely, so it is empty. -/
def generateSha256 (buf : List Nat) : String × List Nat :=
  (String.mk (hexEncode (sha256Bytes buf)), [])

/-- ASCII string to bytes (for concrete fixtures). -/
def strBytes (s : String) : List Nat := s.data.map Char.toNat

def helloBytes : List Nat := strBytes ("hello")

/-! ## strings.Fields

`strings.Fields` splits around runs of whitespace.  It is modelled here at the
byte level over the single-byte whitespace characters recognised by
`unicode.IsSpace` (tab, LF, VT, FF, CR, space); the claims only exercise ASCII
content, where the two agree. -/

def isGoSpaceByte (b : Nat) : Bool :=
  b = 9 || b = 10 || b = 11 || b = 12 || b = 13 || b = 32

def goFieldsAux : List Nat → List Nat → List (List Nat)
  | [], acc => if acc = [] then [] else [acc.reverse]
  | b :: rest, acc =>
      if isGoSpaceByte b then
        if acc = [] then goFieldsAux rest [] else acc.reverse :: goFieldsAux rest []
      else goFieldsAux rest (b :: acc)

/-- Fields of a byte string: `strings.Fields(s)` as a list of byte tokens. -/
def goFields (l : List Nat) : List (List Nat) := goFieldsAux l []

/-- A Go byte string as a Lean string (one `Char` per byte; injective below
256, so Go's byte-wise string equality coincides with Lean equality). -/
def bytesToStr (l : List Nat) : String := String.mk (l.map Char.ofNat)

/-! ## The run (src/main.go, `run`)

External effects are an explicit environment:
* `newClientOk` — whether `minio.New` succeeds;
* `fetch b k` — `download(client, b, k)`: `GetObject` plus draining the object
  into a buffer; `none` covers both a failed `GetObject` and a read error
  while draining; `some bytes` is the downloaded content;
* `createOk p` — whether `os.Create(p)` succeeds (on failure no file exists);
* `copyFailAfter p` — `io.Copy` into the created file: `none` means every
  write succeeds; `some n` means the file's writer fails once `n` bytes have
  been accepted (so a copy of at most `n` bytes still succeeds).

The trace records each store fetch and each `os.Create` call, in order, and
`fs` lists the files this run created together with their final content. -/

structure RunOps where
  app : String
  tag : String
  endpoint : String
  bucket : String
  id : String
  key : String
  os : String
  arch : String
  sha : String
deriving DecidableEq

structure Env where
  newClientOk : Bool
  fetch : String → String → Option (List Nat)
  createOk : String → Bool
  copyFailAfter : String → Option Nat

inductive Event where
  | fetch (bucket key : String)
  | create (path : String)
deriving DecidableEq

inductive RunError where
  | clientInit
  | archiveFetch (bucket key : String)
  | checksumFetch (bucket key : String)
  | checksumMismatch
  | createFailed (path : String)
  | writeFailed (path : String)
deriving DecidableEq

/-- How the run ends: a normal return (`ok` or `error`), or a Go runtime
panic (process abort, no error value returned to the caller). -/
inductive Outcome where
  | ok
  | error (e : RunError)
  | panicked
deriving DecidableEq

structure RunResult where
  outcome : Outcome
  events : List Event
  fs : List (String × List Nat)
deriving DecidableEq

/-- Key base: `fileName := fmt.Sprintf("%s_%s_%s_%s", opts.app, opts.tag, opts.os, opts.arch)`. -/
def fileName (opts : RunOps) : String :=
  opts.app ++ "_" ++ opts.tag ++ "_" ++ opts.os ++ "_" ++ opts.arch

/-- Archive key: `tarKey := fileName + ".tar.gz"`. -/
def archiveKey (opts : RunOps) : String := fileName opts ++ ".tar.gz"

/-- Checksum key: `checksumKey := fileName + ".sha256"`. -/
def checksumKey (opts : RunOps) : String := fileName opts ++ ".sha256"

/-- The tail of `run` after the expected digest is resolved: compare the
checksums, and on a match `os.Create(tarKey)` and `io.Copy(archiveFile,
archive)`.  `archiveRest` is what is left in the archive buffer (empty, since
`generateSha256` drained it); `evts` are the fetch events so far. -/
def finishRun (opts : RunOps) (env : Env) (localChecksum : String)
    (archiveRest : List Nat) (expected : String) (evts : List Event) : RunResult :=
  if expected ≠ localChecksum then
    ⟨.error .checksumMismatch, evts, []⟩
  else
    if env.createOk (archiveKey opts) = false then
      ⟨.error (.createFailed (archiveKey opts)),
        evts ++ [.create (archiveKey opts)], []⟩
    else
      match env.copyFailAfter (archiveKey opts) with
      | none =>
          ⟨.ok, evts ++ [.create (archiveKey opts)],
            [(archiveKey opts, archiveRest)]⟩
      | some n =>
          if archiveRest.length ≤ n then
            ⟨.ok, evts ++ [.create (archiveKey opts)],
              [(archiveKey opts, archiveRest)]⟩
          else
            ⟨.error (.writeFailed (archiveKey opts)),
              evts ++ [.create (archiveKey opts)],
              [(archiveKey opts, archiveRest.take n)]⟩

/-- Embedding of `run` (src/main.go): minio.New, download the archive, digest it (draining
the buffer), resolve the expected digest (the `-sha` flag if non-empty, else
`strings.Fields(remoteSha256.String())[0]` — a runtime panic when there is no
field), compare, and persist on a match. -/
def run (opts : RunOps) (env : Env) : RunResult :=
  if env.newClientOk = false then
    ⟨.error .clientInit, [], []⟩
  else
    match env.fetch opts.bucket (archiveKey opts) with
    | none =>
        ⟨.error (.archiveFetch opts.bucket (archiveKey opts)),
          [.fetch opts.bucket (archiveKey opts)], []⟩
    | some archive =>
        let d := generateSha256 archive
        if opts.sha = "" then
          match env.fetch opts.bucket (checksumKey opts) with
          | none =>
              ⟨.error (.checksumFetch opts.bucket (checksumKey opts)),
                [.fetch opts.bucket (archiveKey opts),
                 .fetch opts.bucket (checksumKey opts)], []⟩
          | some content =>
              match goFields content with
              | [] =>
                  -- strings.Fields(...)[0] on an empty field list: index out
                  -- of range, the process panics.
                  ⟨.panicked,
                    [.fetch opts.bucket (archiveKey opts),
                     .fetch opts.bucket (checksumKey opts)], []⟩
              | tok :: _ =>
                  finishRun opts env d.1 d.2 (bytesToStr tok)
                    [.fetch opts.bucket (archiveKey opts),
                     .fetch opts.bucket (checksumKey opts)]
        else
          finishRun opts env d.1 d.2 opts.sha
            [.fetch opts.bucket (archiveKey opts)]

/-! ## Concrete fixtures (the end-to-end scenario of the spec) -/

/-- The true SHA-256 of `b"hello"`. -/
def helloDigest : String :=
  "2cf24dba5fb0a30e26e83b2ac5b9e29e1b161e5c1fa7425e73043362938b9824"

def optsE2E : RunOps :=
  ⟨"svc", "v1.0.0", "s3.amazonaws.com", "bkt", "id", "key", "linux", "amd64", ""⟩

/-- Store for the end-to-end scenario: the archive object holds `b"hello"`,
the checksum object holds the true digest followed by the file name. -/
def envE2E : Env :=
  ⟨true,
   fun b k =>
     if b = "bkt" ∧ k = "svc_v1.0.0_linux_amd64.tar.gz" then some helloBytes
     else if b = "bkt" ∧ k = "svc_v1.0.0_linux_amd64.sha256" then
       some (strBytes (helloDigest ++ "  svc_v1.0.0_linux_amd64.tar.gz\n"))
     else none,
   fun _ => true, fun _ => none⟩

/-- Override-digest fixture: `-sha` set to the true digest of the archive. -/
def optsFlag : RunOps :=
  ⟨"svc", "v2.0.0", "s3.amazonaws.com", "bkt", "id", "key", "linux", "amd64",
   helloDigest⟩

def envFlag : Env :=
  ⟨true,
   fun b k =>
     if b = "bkt" ∧ k = "svc_v2.0.0_linux_amd64.tar.gz" then some helloBytes
     else none,
   fun _ => true, fun _ => none⟩

/-- Mismatch fixture: `-sha` set to a value that is not the archive digest. -/
def optsBadSha : RunOps :=
  ⟨"svc", "v1.0.0", "s3.amazonaws.com", "bkt", "id", "key", "linux", "amd64",
   "deadbeef"⟩

/-- Empty-checksum-object fixture. -/
def envEmptyChecksum : Env :=
  ⟨true,
   fun b k =>
     if b = "bkt" ∧ k = "svc_v1.0.0_linux_amd64.tar.gz" then some helloBytes
     else if b = "bkt" ∧ k = "svc_v1.0.0_linux_amd64.sha256" then some []
     else none,
   fun _ => true, fun _ => none⟩

/-- Checksum object in `sha256sum` format with an arbitrary first field. -/
def envAbc : Env :=
  ⟨true,
   fun b k =>
     if b = "bkt" ∧ k = "svc_v1.0.0_linux_amd64.tar.gz" then some helloBytes
     else if b = "bkt" ∧ k = "svc_v1.0.0_linux_amd64.sha256" then
       some (strBytes ("abc123  filename.tar.gz\n"))
     else none,
   fun _ => true, fun _ => none⟩

/-- Store where every fetch fails. -/
def envNoStore : Env := ⟨true, fun _ _ => none, fun _ => true, fun _ => none⟩

/-! ## Helper lemmas -/

theorem archiveKey_ne_checksumKey (opts : RunOps) :
    archiveKey opts ≠ checksumKey opts := by
  intro h
  have h2 : (fileName opts).data ++ (".tar.gz").data
      = (fileName opts).data ++ (".sha256").data := by
    simpa [archiveKey, checksumKey] using congrArg String.data h
  have h3 := List.append_cancel_left h2
  exact absurd h3 (by decide)

theorem finishRun_eq_mismatch (opts : RunOps) (env : Env)
    (lc : String) (rest : List Nat) (expected : String) (evts : List Event)
    (h : expected ≠ lc) :
    finishRun opts env lc rest expected evts
      = ⟨.error .checksumMismatch, evts, []⟩ := by
  simp [finishRun, h]

theorem finishRun_outcome_ne_mismatch (opts : RunOps) (env : Env)
    (lc : String) (rest : List Nat) (expected : String) (evts : List Event)
    (h : expected = lc) :
    (finishRun opts env lc rest expected evts).outcome
      ≠ .error .checksumMismatch := by
  subst h
  unfold finishRun
  rw [if_neg (by simp)]
  split
  · simp
  · split <;> [simp; split <;> simp]

theorem finishRun_outcome_mismatch_iff (opts : RunOps) (env : Env)
    (lc : String) (rest : List Nat) (expected : String) (evts : List Event) :
    (finishRun opts env lc rest expected evts).outcome
      = .error .checksumMismatch ↔ expected ≠ lc := by
  by_cases h : expected = lc
  · subst h
    have := finishRun_outcome_ne_mismatch opts env expected rest expected evts rfl
    simp [this]
  · simp [h, finishRun_eq_mismatch opts env lc rest expected evts h]

theorem finishRun_events_shape (opts : RunOps) (env : Env)
    (lc : String) (rest : List Nat) (expected : String) (evts : List Event) :
    (finishRun opts env lc rest expected evts).events = evts ∨
    (finishRun opts env lc rest expected evts).events
      = evts ++ [.create (archiveKey opts)] := by
  unfold finishRun
  split
  · exact Or.inl rfl
  · split
    · exact Or.inr rfl
    · split
      · exact Or.inr rfl
      · split
        · exact Or.inr rfl
        · exact Or.inr rfl

theorem finishRun_outcome_cases (opts : RunOps) (env : Env)
    (lc : String) (rest : List Nat) (expected : String) (evts : List Event) :
    (finishRun opts env lc rest expected evts).outcome
        = .error .checksumMismatch ∨
    (finishRun opts env lc rest expected evts).outcome
        = .error (.createFailed (archiveKey opts)) ∨
    (finishRun opts env lc rest expected evts).outcome = .ok ∨
    (finishRun opts env lc rest expected evts).outcome
        = .error (.writeFailed (archiveKey opts)) := by
  unfold finishRun
  split
  · simp
  · split
    · simp
    · split
      · simp
      · split <;> simp

/-- Exhaustive case analysis of `run`: exactly one of the six source paths is
taken (client-construction failure, archive fetch failure, checksum fetch
failure, panic on an empty checksum file, verification with a resolved token,
verification with the `-sha` flag). -/
theorem run_shape (opts : RunOps) (env : Env) :
    (env.newClientOk = false ∧ run opts env = ⟨.error .clientInit, [], []⟩)
  ∨ (env.newClientOk = true ∧ env.fetch opts.bucket (archiveKey opts) = none ∧
      run opts env = ⟨.error (.archiveFetch opts.bucket (archiveKey opts)),
        [.fetch opts.bucket (archiveKey opts)], []⟩)
  ∨ (∃ archive, env.newClientOk = true ∧
      env.fetch opts.bucket (archiveKey opts) = some archive ∧ opts.sha = "" ∧
      env.fetch opts.bucket (checksumKey opts) = none ∧
      run opts env = ⟨.error (.checksumFetch opts.bucket (checksumKey opts)),
        [.fetch opts.bucket (archiveKey opts),
         .fetch opts.bucket (checksumKey opts)], []⟩)
  ∨ (∃ archive content, env.newClientOk = true ∧
      env.fetch opts.bucket (archiveKey opts) = some archive ∧ opts.sha = "" ∧
      env.fetch opts.bucket (checksumKey opts) = some content ∧
      goFields content = [] ∧
      run opts env = ⟨.panicked,
        [.fetch opts.bucket (archiveKey opts),
         .fetch opts.bucket (checksumKey opts)], []⟩)
  ∨ (∃ archive content tok toks, env.newClientOk = true ∧
      env.fetch opts.bucket (archiveKey opts) = some archive ∧ opts.sha = "" ∧
      env.fetch opts.bucket (checksumKey opts) = some content ∧
      goFields content = tok :: toks ∧
      run opts env = finishRun opts env (generateSha256 archive).1
        (generateSha256 archive).2 (bytesToStr tok)
        [.fetch opts.bucket (archiveKey opts),
         .fetch opts.bucket (checksumKey opts)])
  ∨ (∃ archive, env.newClientOk = true ∧
      env.fetch opts.bucket (archiveKey opts) = some archive ∧ opts.sha ≠ "" ∧
      run opts env = finishRun opts env (generateSha256 archive).1
        (generateSha256 archive).2 opts.sha
        [.fetch opts.bucket (archiveKey opts)]) := by
  cases hb : env.newClientOk with
  | false => exact Or.inl ⟨rfl, by simp [run, hb]⟩
  | true =>
    cases hf : env.fetch opts.bucket (archiveKey opts) with
    | none => exact Or.inr (Or.inl ⟨rfl, rfl, by simp [run, hb, hf]⟩)
    | some archive =>
      by_cases hs : opts.sha = ""
      · cases hf2 : env.fetch opts.bucket (checksumKey opts) with
        | none =>
          exact Or.inr (Or.inr (Or.inl
            ⟨archive, rfl, rfl, hs, rfl, by simp [run, hb, hf, hs, hf2]⟩))
        | some content =>
          cases hg : goFields content with
          | nil =>
            exact Or.inr (Or.inr (Or.inr (Or.inl
              ⟨archive, content, rfl, rfl, hs, rfl, hg,
               by simp [run, hb, hf, hs, hf2, hg]⟩)))
          | cons tok toks =>
            exact Or.inr (Or.inr (Or.inr (Or.inr (Or.inl
              ⟨archive, content, tok, toks, rfl, rfl, hs, rfl, hg,
               by simp [run, hb, hf, hs, hf2, hg]⟩))))
      · exact Or.inr (Or.inr (Or.inr (Or.inr (Or.inr
          ⟨archive, rfl, rfl, hs, by simp [run, hb, hf, hs]⟩))))

theorem hexDigit_isLowerHex : ∀ n, n < 16 → isLowerHexDigit (hexDigit n) = true := by
  decide

theorem hexEncode_length (l : List Nat) : (hexEncode l).length = 2 * l.length := by
  induction l with
  | nil => rfl
  | cons b rest ih => simp [hexEncode, ih]; omega

theorem wordToBytes_lt (w : Nat) : ∀ b ∈ wordToBytes w, b < 256 := by
  simp only [wordToBytes, List.mem_cons, List.not_mem_nil, or_false]
  intro b hb
  rcases hb with rfl | rfl | rfl | rfl <;> omega

theorem sha256Bytes_lt (msg : List Nat) : ∀ b ∈ sha256Bytes msg, b < 256 := by
  intro b hb
  simp only [sha256Bytes, List.mem_append] at hb
  rcases hb with ((((((h | h) | h) | h) | h) | h) | h) | h <;>
    exact wordToBytes_lt _ _ h

theorem hexEncode_hex (l : List Nat) (hl : ∀ b ∈ l, b < 256) :
    ∀ c ∈ hexEncode l, isLowerHexDigit c = true := by
  induction l with
  | nil => simp [hexEncode]
  | cons b rest ih =>
    intro c hc
    simp only [hexEncode, List.mem_cons] at hc
    rcases hc with rfl | rfl | hc
    · refine hexDigit_isLowerHex _ ?_
      have := hl b (by simp)
      omega
    · exact hexDigit_isLowerHex _ (by omega)
    · exact ih (fun x hx => hl x (by simp [hx])) c hc

/-! ## The claims -/

/-- C7: Digest computation is a deterministic function of the input bytes:
for every byte sequence the digest is a 64-character lowercase-hexadecimal
string, and computing twice over identical bytes yields identical results. -/
theorem generateSha256_hex_deterministic (bs : List Nat) :
    (generateSha256 bs).1.length = 64 ∧
    (∀ c ∈ (generateSha256 bs).1.data, isLowerHexDigit c = true) ∧
    (∀ bs2, bs = bs2 → generateSha256 bs = generateSha256 bs2) := by
  refine ⟨?_, ?_, fun bs2 h => by rw [h]⟩
  · show (String.mk (hexEncode (sha256Bytes bs))).length = 64
    have h1 := hexEncode_length (sha256Bytes bs)
    have h2 : (sha256Bytes bs).length = 32 := by
      simp [sha256Bytes, wordToBytes]
    simp only [String.length, h1, h2]
  · show ∀ c ∈ hexEncode (sha256Bytes bs), isLowerHexDigit c = true
    exact hexEncode_hex _ (sha256Bytes_lt bs)

/-- Witness for C7 at the bytes of `b"hello"` (the digest has length 64 and
its first character is a lowercase hex digit). -/
theorem generateSha256_hex_deterministic_witness :
    (generateSha256 helloBytes).1.length = 64 ∧ isLowerHexDigit ('2') = true := by
  have h := generateSha256_hex_deterministic helloBytes
  exact ⟨h.1, h.2.1 '2' (by decide)⟩

/-- C2 (code bug): on the end-to-end scenario (archive `b"hello"`, checksum
object holding the true digest) the run reports success, but the local file
it creates is empty — `generateSha256` drained the archive buffer, so the
final `io.Copy(archiveFile, archive)` has nothing left to write.  The fetch
returned 5 bytes; the persisted content is `[]`. -/
theorem run_e2e_writes_empty_file :
    (run optsE2E envE2E).outcome = .ok ∧
    (run optsE2E envE2E).fs = [("svc_v1.0.0_linux_amd64.tar.gz", [])] ∧
    envE2E.fetch ("bkt") ("svc_v1.0.0_linux_amd64.tar.gz") = some helloBytes ∧
    helloBytes.length = 5 := by
  decide

/-- C3 (code bug): with no `-sha` flag and an empty checksum object, the run
does not return a malformed-checksum error — `strings.Fields(...)[0]` panics
(index out of range), aborting the process. -/
theorem run_empty_checksum_panics :
    (run optsE2E envEmptyChecksum).outcome = .panicked ∧
    envEmptyChecksum.fetch ("bkt") ("svc_v1.0.0_linux_amd64.sha256") = some [] ∧
    (run optsE2E envEmptyChecksum).fs = [] := by
  decide

/-- C9 (code bug): on PASS (override digest equal to the true digest) the run
creates the output file and returns no error, but writes zero of the 5
archive bytes into it — the buffer was drained during digesting, so the
persisted content is empty rather than the archive bytes in full. -/
theorem run_flag_writes_empty_file :
    (run optsFlag envFlag).outcome = .ok ∧
    (run optsFlag envFlag).fs = [("svc_v2.0.0_linux_amd64.tar.gz", [])] ∧
    envFlag.fetch ("bkt") ("svc_v2.0.0_linux_amd64.tar.gz") = some helloBytes ∧
    helloBytes.length = 5 := by
  decide

/-- C1: whenever the computed digest differs from the resolved expected
digest (the `-sha` flag if set, else the first token of the checksum object),
the run ends with the checksum-mismatch error, no file is written, and
`os.Create` is never called. -/
theorem run_mismatch_no_persist (opts : RunOps) (env : Env)
    (archive : List Nat) (expected : String)
    (h0 : env.newClientOk = true)
    (h1 : env.fetch opts.bucket (archiveKey opts) = some archive)
    (hres : (opts.sha ≠ "" ∧ expected = opts.sha) ∨
      (opts.sha = "" ∧ ∃ content tok toks,
        env.fetch opts.bucket (checksumKey opts) = some content ∧
        goFields content = tok :: toks ∧ expected = bytesToStr tok))
    (hne : expected ≠ (generateSha256 archive).1) :
    (run opts env).outcome = .error .checksumMismatch ∧
    (run opts env).fs = [] ∧
    ∀ p, Event.create p ∉ (run opts env).events := by
  rcases run_shape opts env with ⟨hb, _⟩ | ⟨_, hf, _⟩ | ⟨a, _, hf, hs, hf2, _⟩ |
    ⟨a, c, _, hf, hs, hf2, hg, _⟩ | ⟨a, c, tok, toks, _, hf, hs, hf2, hg, hrun⟩ |
    ⟨a, _, hf, hs, hrun⟩
  · simp [h0] at hb
  · simp [h1] at hf
  · rcases hres with ⟨hs2, _⟩ | ⟨_, content, tok, toks, hc, _, _⟩
    · exact absurd hs hs2
    · simp [hc] at hf2
  · rcases hres with ⟨hs2, _⟩ | ⟨_, content, tok, toks, hc, hgc, _⟩
    · exact absurd hs hs2
    · rw [hc] at hf2
      injection hf2 with hcc
      subst hcc
      rw [hgc] at hg
      cases hg
  · rcases hres with ⟨hs2, _⟩ | ⟨_, content, tok2, toks2, hc, hgc, hexp⟩
    · exact absurd hs hs2
    · rw [hc] at hf2
      injection hf2 with hcc
      subst hcc
      rw [hgc] at hg
      injection hg with ht1 ht2
      rw [h1] at hf
      injection hf with ha
      subst ha
      subst ht1
      rw [hrun, finishRun_eq_mismatch _ _ _ _ _ _ (hexp ▸ hne)]
      exact ⟨rfl, rfl, fun p => by simp⟩
  · rcases hres with ⟨_, hexp⟩ | ⟨hs2, _⟩
    · rw [h1] at hf
      injection hf with ha
      subst ha
      rw [hrun, finishRun_eq_mismatch _ _ _ _ _ _ (hexp ▸ hne)]
      exact ⟨rfl, rfl, fun p => by simp⟩
    · exact absurd hs2 hs

/-- Witness for C1: override digest `"deadbeef"` against archive `b"hello"`
ends in the mismatch error with nothing on disk. -/
theorem run_mismatch_no_persist_witness :
    (run optsBadSha envE2E).outcome = .error .checksumMismatch ∧
    (run optsBadSha envE2E).fs = [] := by
  have h := run_mismatch_no_persist optsBadSha envE2E helloBytes ("deadbeef")
    rfl (by decide) (Or.inl ⟨by decide, rfl⟩) (by decide)
  exact ⟨h.1, h.2.1⟩

/-- C4: when the expected digest is resolved from the checksum object, the
value the verifier compares against is exactly the first whitespace-delimited
token of the object's content: the run reports a mismatch precisely when that
token differs from the computed digest. -/
theorem run_resolves_first_token (opts : RunOps) (env : Env)
    (archive content tok : List Nat) (toks : List (List Nat))
    (h0 : env.newClientOk = true)
    (h1 : env.fetch opts.bucket (archiveKey opts) = some archive)
    (hs : opts.sha = "")
    (h2 : env.fetch opts.bucket (checksumKey opts) = some content)
    (hg : goFields content = tok :: toks) :
    ((run opts env).outcome = .error .checksumMismatch ↔
      bytesToStr tok ≠ (generateSha256 archive).1) := by
  rcases run_shape opts env with ⟨hb, _⟩ | ⟨_, hf, _⟩ | ⟨a, _, hf, hs', hf2, _⟩ |
    ⟨a, c, _, hf, hs', hf2, hg', _⟩ | ⟨a, c, tok', toks', _, hf, hs', hf2, hg', hrun⟩ |
    ⟨a, _, hf, hs', hrun⟩
  · simp [h0] at hb
  · simp [h1] at hf
  · simp [h2] at hf2
  · rw [h2] at hf2
    injection hf2 with hcc
    subst hcc
    rw [hg] at hg'
    cases hg'
  · rw [h2] at hf2
    injection hf2 with hcc
    subst hcc
    rw [hg] at hg'
    injection hg' with ht1 ht2
    rw [h1] at hf
    injection hf with ha
    subst ha
    subst ht1
    rw [hrun]
    exact finishRun_outcome_mismatch_iff _ _ _ _ _ _
  · exact absurd hs hs'

/-- Witness for C4: for checksum-object content `"abc123  filename.tar.gz\n"`
the fields are `["abc123", "filename.tar.gz"]`, the resolved digest is
`"abc123"`, and — it not being the digest of `b"hello"` — the run reports the
mismatch error. -/
theorem run_resolves_first_token_witness :
    goFields (strBytes ("abc123  filename.tar.gz\n"))
      = [strBytes ("abc123"), strBytes ("filename.tar.gz")] ∧
    (run optsE2E envAbc).outcome = .error .checksumMismatch := by
  refine ⟨by decide, ?_⟩
  exact (run_resolves_first_token optsE2E envAbc helloBytes
    (strBytes ("abc123  filename.tar.gz\n")) (strBytes ("abc123"))
    [strBytes ("filename.tar.gz")] rfl (by decide) rfl (by decide)
    (by decide)).mpr (by decide)

/-- C5: the derived keys are `{app}_{tag}_{os}_{arch}.tar.gz` and
`{app}_{tag}_{os}_{arch}.sha256` — the same base, differing only in the
suffix — and every object the run fetches is addressed by one of these two
keys in the request's bucket. -/
theorem run_key_derivation (opts : RunOps) (env : Env) :
    fileName opts = opts.app ++ "_" ++ opts.tag ++ "_" ++ opts.os ++ "_" ++ opts.arch ∧
    archiveKey opts = fileName opts ++ ".tar.gz" ∧
    checksumKey opts = fileName opts ++ ".sha256" ∧
    ∀ b k, Event.fetch b k ∈ (run opts env).events →
      b = opts.bucket ∧ (k = archiveKey opts ∨ k = checksumKey opts) := by
  refine ⟨rfl, rfl, rfl, ?_⟩
  intro b k hmem
  rcases run_shape opts env with ⟨_, hrun⟩ | ⟨_, _, hrun⟩ | ⟨a, _, _, _, _, hrun⟩ |
    ⟨a, c, _, _, _, _, _, hrun⟩ | ⟨a, c, tok, toks, _, _, _, _, _, hrun⟩ |
    ⟨a, _, _, _, hrun⟩ <;> rw [hrun] at hmem
  · simp at hmem
  · simp at hmem
    exact ⟨hmem.1, Or.inl hmem.2⟩
  · simp at hmem
    rcases hmem with ⟨hb', hk⟩ | ⟨hb', hk⟩
    · exact ⟨hb', Or.inl hk⟩
    · exact ⟨hb', Or.inr hk⟩
  · simp at hmem
    rcases hmem with ⟨hb', hk⟩ | ⟨hb', hk⟩
    · exact ⟨hb', Or.inl hk⟩
    · exact ⟨hb', Or.inr hk⟩
  · rcases finishRun_events_shape opts env (generateSha256 a).1 (generateSha256 a).2
      (bytesToStr tok) [.fetch opts.bucket (archiveKey opts),
        .fetch opts.bucket (checksumKey opts)] with he | he <;>
      rw [he] at hmem <;> simp at hmem <;>
      rcases hmem with ⟨hb', hk⟩ | ⟨hb', hk⟩
    · exact ⟨hb', Or.inl hk⟩
    · exact ⟨hb', Or.inr hk⟩
    · exact ⟨hb', Or.inl hk⟩
    · exact ⟨hb', Or.inr hk⟩
  · rcases finishRun_events_shape opts env (generateSha256 a).1 (generateSha256 a).2
      opts.sha [.fetch opts.bucket (archiveKey opts)] with he | he <;>
      rw [he] at hmem <;> simp at hmem
    · exact ⟨hmem.1, Or.inl hmem.2⟩
    · exact ⟨hmem.1, Or.inl hmem.2⟩

/-- Witness for C5 on the end-to-end fixture: the checksum fetch event in the
trace is addressed to the request's bucket under one of the two derived
keys. -/
theorem run_key_derivation_witness :
    "bkt" = optsE2E.bucket ∧
    ("svc_v1.0.0_linux_amd64.sha256" = archiveKey optsE2E ∨
     "svc_v1.0.0_linux_amd64.sha256" = checksumKey optsE2E) :=
  (run_key_derivation optsE2E envE2E).2.2.2 ("bkt")
    "svc_v1.0.0_linux_amd64.sha256" (by decide)

theorem finishRun_outcome_no_fetch_error (opts : RunOps) (env : Env)
    (lc : String) (rest : List Nat) (expected : String) (evts : List Event)
    (b k : String) :
    (finishRun opts env lc rest expected evts).outcome
        ≠ .error (.archiveFetch b k) ∧
    (finishRun opts env lc rest expected evts).outcome
        ≠ .error (.checksumFetch b k) := by
  rcases finishRun_outcome_cases opts env lc rest expected evts with h | h | h | h <;>
    rw [h] <;> exact ⟨by simp, by simp⟩

/-- C6: when the `-sha` override is set (non-empty), the checksum object is
never fetched — no store call is addressed to the checksum key — and the
override value itself is what the verifier compares (unchanged) against the
computed digest. -/
theorem run_sha_override_skips_checksum_fetch (opts : RunOps) (env : Env)
    (hsha : opts.sha ≠ "") :
    (∀ b, Event.fetch b (checksumKey opts) ∉ (run opts env).events) ∧
    (∀ archive, env.newClientOk = true →
      env.fetch opts.bucket (archiveKey opts) = some archive →
      ((run opts env).outcome = .error .checksumMismatch ↔
        opts.sha ≠ (generateSha256 archive).1)) := by
  constructor
  · intro b hmem
    rcases run_shape opts env with ⟨_, hrun⟩ | ⟨_, _, hrun⟩ | ⟨a, _, _, hs, _, hrun⟩ |
      ⟨a, c, _, _, hs, _, _, hrun⟩ | ⟨a, c, tok, toks, _, _, hs, _, _, hrun⟩ |
      ⟨a, _, _, _, hrun⟩
    · rw [hrun] at hmem
      simp at hmem
    · rw [hrun] at hmem
      simp at hmem
      exact archiveKey_ne_checksumKey opts hmem.2.symm
    · exact absurd hs hsha
    · exact absurd hs hsha
    · exact absurd hs hsha
    · rw [hrun] at hmem
      rcases finishRun_events_shape opts env (generateSha256 a).1 (generateSha256 a).2
        opts.sha [.fetch opts.bucket (archiveKey opts)] with he | he <;>
        rw [he] at hmem <;> simp at hmem <;>
        exact archiveKey_ne_checksumKey opts hmem.2.symm
  · intro archive h0 h1
    rcases run_shape opts env with ⟨hb, _⟩ | ⟨_, hf, _⟩ | ⟨a, _, _, hs, _, _⟩ |
      ⟨a, c, _, _, hs, _, _, _⟩ | ⟨a, c, tok, toks, _, _, hs, _, _, _⟩ |
      ⟨a, _, hf, _, hrun⟩
    · simp [h0] at hb
    · simp [h1] at hf
    · exact absurd hs hsha
    · exact absurd hs hsha
    · exact absurd hs hsha
    · rw [h1] at hf
      injection hf with ha
      subst ha
      rw [hrun]
      exact finishRun_outcome_mismatch_iff _ _ _ _ _ _

/-- Witness for C6: with the override set, no event in the trace fetches the
checksum key. -/
theorem run_sha_override_skips_checksum_fetch_witness :
    Event.fetch ("bkt") (checksumKey optsFlag) ∉ (run optsFlag envFlag).events :=
  (run_sha_override_skips_checksum_fetch optsFlag envFlag (by decide)).1 ("bkt")

/-- C8: the verifier passes iff the computed digest string equals the
resolved expected digest string, under exact (case-sensitive) string
equality: the run reports the mismatch error exactly when the two strings
differ. -/
theorem run_verifier_exact_equality (opts : RunOps) (env : Env)
    (archive : List Nat) (expected : String)
    (h0 : env.newClientOk = true)
    (h1 : env.fetch opts.bucket (archiveKey opts) = some archive)
    (hres : (opts.sha ≠ "" ∧ expected = opts.sha) ∨
      (opts.sha = "" ∧ ∃ content tok toks,
        env.fetch opts.bucket (checksumKey opts) = some content ∧
        goFields content = tok :: toks ∧ expected = bytesToStr tok)) :
    ((run opts env).outcome = .error .checksumMismatch ↔
      expected ≠ (generateSha256 archive).1) := by
  rcases run_shape opts env with ⟨hb, _⟩ | ⟨_, hf, _⟩ | ⟨a, _, hf, hs, hf2, _⟩ |
    ⟨a, c, _, hf, hs, hf2, hg, _⟩ | ⟨a, c, tok, toks, _, hf, hs, hf2, hg, hrun⟩ |
    ⟨a, _, hf, hs, hrun⟩
  · simp [h0] at hb
  · simp [h1] at hf
  · rcases hres with ⟨hs2, _⟩ | ⟨_, content, tok, toks, hc, _, _⟩
    · exact absurd hs hs2
    · simp [hc] at hf2
  · rcases hres with ⟨hs2, _⟩ | ⟨_, content, tok, toks, hc, hgc, _⟩
    · exact absurd hs hs2
    · rw [hc] at hf2
      injection hf2 with hcc
      subst hcc
      rw [hgc] at hg
      cases hg
  · rcases hres with ⟨hs2, _⟩ | ⟨_, content, tok2, toks2, hc, hgc, hexp⟩
    · exact absurd hs hs2
    · rw [hc] at hf2
      injection hf2 with hcc
      subst hcc
      rw [hgc] at hg
      injection hg with ht1 ht2
      rw [h1] at hf
      injection hf with ha
      subst ha
      subst ht1
      subst hexp
      rw [hrun]
      exact finishRun_outcome_mismatch_iff _ _ _ _ _ _
  · rcases hres with ⟨_, hexp⟩ | ⟨hs2, _⟩
    · rw [h1] at hf
      injection hf with ha
      subst ha
      subst hexp
      rw [hrun]
      exact finishRun_outcome_mismatch_iff _ _ _ _ _ _
    · exact absurd hs2 hs

/-- Witness for C8: `"deadbeef"` differs from the digest of `b"hello"`, so
the run ends in the mismatch error. -/
theorem run_verifier_exact_equality_witness :
    (run optsBadSha envE2E).outcome = .error .checksumMismatch :=
  (run_verifier_exact_equality optsBadSha envE2E helloBytes ("deadbeef")
    rfl (by decide) (Or.inl ⟨by decide, rfl⟩)).mpr (by decide)

/-- C10: every pre-verification error path (archive fetch failure, checksum
fetch failure; a stream-read failure while digesting cannot occur, the
archive being fully buffered) returns an error with no file created or
modified, and the archive fetch always precedes the checksum fetch: an
archive-fetch error means the checksum object was never requested, and any
checksum fetch in the trace is preceded by the archive fetch at the head. -/
theorem run_pre_verification_no_persist (opts : RunOps) (env : Env) :
    (∀ b k, ((run opts env).outcome = .error (.archiveFetch b k) ∨
             (run opts env).outcome = .error (.checksumFetch b k)) →
      (run opts env).fs = [] ∧ ∀ p, Event.create p ∉ (run opts env).events) ∧
    (∀ b k, (run opts env).outcome = .error (.archiveFetch b k) →
      ∀ b2, Event.fetch b2 (checksumKey opts) ∉ (run opts env).events) ∧
    (∀ b, Event.fetch b (checksumKey opts) ∈ (run opts env).events →
      (run opts env).events.head? = some (.fetch opts.bucket (archiveKey opts))) := by
  refine ⟨?_, ?_, ?_⟩
  · intro b k hout
    rcases run_shape opts env with ⟨_, hrun⟩ | ⟨_, _, hrun⟩ | ⟨a, _, _, _, _, hrun⟩ |
      ⟨a, c, _, _, _, _, _, hrun⟩ | ⟨a, c, tok, toks, _, _, _, _, _, hrun⟩ |
      ⟨a, _, _, _, hrun⟩ <;> rw [hrun] at hout ⊢
    · exact ⟨rfl, fun p => by simp⟩
    · exact ⟨rfl, fun p => by simp⟩
    · exact ⟨rfl, fun p => by simp⟩
    · exact ⟨rfl, fun p => by simp⟩
    · rcases hout with h | h
      · exact absurd h (finishRun_outcome_no_fetch_error _ _ _ _ _ _ b k).1
      · exact absurd h (finishRun_outcome_no_fetch_error _ _ _ _ _ _ b k).2
    · rcases hout with h | h
      · exact absurd h (finishRun_outcome_no_fetch_error _ _ _ _ _ _ b k).1
      · exact absurd h (finishRun_outcome_no_fetch_error _ _ _ _ _ _ b k).2
  · intro b k hout b2 hmem
    rcases run_shape opts env with ⟨_, hrun⟩ | ⟨_, _, hrun⟩ | ⟨a, _, _, _, _, hrun⟩ |
      ⟨a, c, _, _, _, _, _, hrun⟩ | ⟨a, c, tok, toks, _, _, _, _, _, hrun⟩ |
      ⟨a, _, _, _, hrun⟩ <;> rw [hrun] at hout hmem
    · simp at hmem
    · simp at hmem
      exact archiveKey_ne_checksumKey opts hmem.2.symm
    · simp at hout
    · simp at hout
    · exact absurd hout (finishRun_outcome_no_fetch_error _ _ _ _ _ _ b k).1
    · exact absurd hout (finishRun_outcome_no_fetch_error _ _ _ _ _ _ b k).1
  · intro b hmem
    rcases run_shape opts env with ⟨_, hrun⟩ | ⟨_, _, hrun⟩ | ⟨a, _, _, _, _, hrun⟩ |
      ⟨a, c, _, _, _, _, _, hrun⟩ | ⟨a, c, tok, toks, _, _, _, _, _, hrun⟩ |
      ⟨a, _, _, _, hrun⟩ <;> rw [hrun] at hmem ⊢
    · simp at hmem
    · simp at hmem
      exact absurd hmem.2.symm (archiveKey_ne_checksumKey opts)
    · simp
    · simp
    · rcases finishRun_events_shape opts env (generateSha256 a).1 (generateSha256 a).2
        (bytesToStr tok) [.fetch opts.bucket (archiveKey opts),
          .fetch opts.bucket (checksumKey opts)] with he | he <;> rw [he] <;> simp
    · rcases finishRun_events_shape opts env (generateSha256 a).1 (generateSha256 a).2
        opts.sha [.fetch opts.bucket (archiveKey opts)] with he | he <;>
        rw [he] at hmem <;> simp at hmem <;>
        exact absurd hmem.2.symm (archiveKey_ne_checksumKey opts)

/-- Witness for C10: with every store fetch failing, the run reports the
archive-fetch error, writes no file, calls no `os.Create`, and never requests
the checksum object. -/
theorem run_pre_verification_no_persist_witness :
    (run optsE2E envNoStore).fs = [] ∧
    Event.create ("svc_v1.0.0_linux_amd64.tar.gz") ∉ (run optsE2E envNoStore).events ∧
    Event.fetch ("bkt") (checksumKey optsE2E) ∉ (run optsE2E envNoStore).events := by
  have h := run_pre_verification_no_persist optsE2E envNoStore
  refine ⟨(h.1 ("bkt") ("svc_v1.0.0_linux_amd64.tar.gz") (Or.inl (by decide))).1,
    (h.1 ("bkt") ("svc_v1.0.0_linux_amd64.tar.gz") (Or.inl (by decide))).2 _,
    h.2.1 ("bkt") ("svc_v1.0.0_linux_amd64.tar.gz") (by decide) ("bkt")⟩

end ServiceLoader
